import Mathlib

/-!
Shallow embedding of the mdlayher/pidfd package (Linux implementation):

* the error model: unix errnos, os.SyscallError, the package's *Error type
  (pidfd.go), Go's errors.Is chain walk;
* open, sendSignal and wrap (pidfd_linux.go);
* the cancellable wait algorithm (pidfd_linux.go, func (f *File) wait):
  the Read poll loop with its unix.Waitid WNOWAIT callback, the cancellation
  watcher goroutine's forced read deadline, the error-priority resolution,
  and the deadline life cycle across consecutive Wait calls.

File.Wait (pidfd.go) delegates directly to the platform wait, so the Linux
wait below is the behaviour of the public Wait on Linux.
-/

namespace Pidfd

/-- The unix errno values that occur in the package and its tests. -/
inductive Errno
  | EPERM
  | ESRCH
  | EAGAIN
  | EINVAL
  | EACCES
  | ENOENT
  | ECHILD
  deriving DecidableEq, Repr

/-- The Go error values reachable in this package.

* errno e           — a bare unix.Errno (= syscall.Errno) value;
* syscallCall n e   — os.NewSyscallError(n, e), as returned by the
                      socket.Conn collaborator (e.g. "pidfd_send_signal");
* pidfdError fd pid cause — the package's *Error (pidfd.go): FD, PID and the
                      wrapped cause;
* ctxCanceled / ctxDeadlineExceeded — the context package sentinels;
* osDeadlineExceeded — os.ErrDeadlineExceeded, returned by a deadline-expired
                      poller read;
* invalidSignalType — the fmt.Errorf error of sendSignal for a signal value
                      that is not a unix.Signal (pidfd_linux.go line 57);
* errNotExist / errPermission — the os.ErrNotExist and os.ErrPermission
                      sentinels used as errors.Is targets. -/
inductive GoError
  | errno (e : Errno)
  | syscallCall (name : String) (cause : Errno)
  | pidfdError (fd : Int) (pid : Int) (cause : GoError)
  | ctxCanceled
  | ctxDeadlineExceeded
  | osDeadlineExceeded
  | invalidSignalType
  | errNotExist
  | errPermission
  deriving DecidableEq, Repr

/-- Errors.Unwrap over the model: the package's *Error unwraps to its cause
(pidfd.go, func (e *Error) Unwrap), os.SyscallError unwraps to its errno;
no other value in the model has an Unwrap method. -/
def unwrap : GoError → Option GoError
  | .pidfdError _ _ cause => some cause
  | .syscallCall _ cause => some (.errno cause)
  | _ => none

/-- The Is method of syscall.Errno (Go standard library): an errno matches
os.ErrPermission when it is EACCES or EPERM, and os.ErrNotExist when it is
ENOENT. ESRCH matches neither through this method. -/
def errnoIsMethod (e : Errno) (target : GoError) : Bool :=
  decide ((target = GoError.errPermission ∧ (e = Errno.EACCES ∨ e = Errno.EPERM)) ∨
    (target = GoError.errNotExist ∧ e = Errno.ENOENT))

/-- Go's errors.Is(err, target) over the model: at each chain element, compare
with the target, then try the element's own Is method, then unwrap and
continue. The *Error case inlines its Is method (pidfd.go lines 107-116):
for the target os.ErrNotExist it reports errors.Is(cause, esrch) where esrch
is unix.ESRCH (pidfd_linux.go line 17), and for every other target it
reports false and the walk falls through to the unwrapped cause.
The equality compare is modelled structurally. -/
def errsIs : GoError → GoError → Bool
  | .pidfdError fd pid cause, target =>
    decide (GoError.pidfdError fd pid cause = target)
      || (decide (target = GoError.errNotExist) && errsIs cause (.errno .ESRCH))
      || errsIs cause target
  | .syscallCall name cause, target =>
    decide (GoError.syscallCall name cause = target)
      || decide (GoError.errno cause = target)
      || errnoIsMethod cause target
  | .errno e, target =>
    decide (GoError.errno e = target) || errnoIsMethod e target
  | err, target => decide (err = target)

/-- The Is method of the package's *Error taken on its own (pidfd.go lines
107-116): switch on target; for os.ErrNotExist report errors.Is(cause, esrch);
for any other target report false. -/
def errorIsMethod (cause : GoError) (target : GoError) : Bool :=
  if target = GoError.errNotExist then errsIs cause (.errno .ESRCH) else false

/-- Errors.As(err, **Error) over the model: whether the unwrap chain contains
a *Error. Only pidfdError wraps a full GoError; syscallCall unwraps to a bare
errno and errnos unwrap to nothing, so a chain whose head is not a pidfdError
never reaches one. -/
def asPidfdError : GoError → Bool
  | .pidfdError _ _ _ => true
  | _ => false

/-- An os.Signal value as sendSignal sees it: either a unix.Signal
(= syscall.Signal, an integer signal number — os.Interrupt included, since
syscall.Signal and unix.Signal are one type on Linux) or a value of some
other concrete type that implements os.Signal. -/
inductive OSSignal
  | unixSignal (n : Int)
  | otherSignal (typeName : String)
  deriving DecidableEq, Repr

/-- Whether the type assertion signal.(unix.Signal) at pidfd_linux.go line 55
succeeds: the signal value belongs to the platform signal-number domain. -/
def signalInDomain : OSSignal → Bool
  | .unixSignal _ => true
  | .otherSignal _ => false

/-- Wrap (pidfd_linux.go lines 122-138): a nil error passes through; any other
error is annotated into a *Error carrying the File's pid and the best-effort
descriptor number. -/
def wrap (pid fd : Int) (err : Option GoError) : Option GoError :=
  match err with
  | none => none
  | some e => some (.pidfdError fd pid e)

/-- Open (pidfd_linux.go lines 24-51), parameterized by the collaborator
outcomes of this call: the unix.PidfdOpen result (ok fd, or an errno — ESRCH
when the process does not exist, per pidfd_open(2)), then the socket.New and
c.SyscallConn results on the success path. A PidfdOpen failure is returned as
an *Error with the pid and a zero FD (there is no descriptor yet); a failure
of either later step is returned as is. Success yields the File's (pid, fd). -/
def «open» (pid : Int) (pidfdOpen : Except Errno Int)
    (socketNew : Option GoError) (syscallConn : Option GoError) :
    Except GoError (Int × Int) :=
  match pidfdOpen with
  | .error e => .error (.pidfdError 0 pid (.errno e))
  | .ok fd =>
    match socketNew with
    | some e => .error e
    | none =>
      match syscallConn with
      | some e => .error e
      | none => .ok (pid, fd)

/-- SendSignal (pidfd_linux.go lines 54-69), parameterized by the outcome the
collaborator call c.PidfdSendSignal(ssig, nil, 0) would produce. Returns the
error and whether the OS call was made: a signal value that fails the
unix.Signal type assertion produces the invalid-signal error with no OS call;
otherwise the signal is delivered and the result goes through wrap. -/
def sendSignal (pid fd : Int) (signal : OSSignal) (deliver : Option GoError) :
    Option GoError × Bool :=
  match signal with
  | .otherSignal _ => (some .invalidSignalType, false)
  | .unixSignal _ => (wrap pid fd deliver, true)

/-! ## The cancellable wait (pidfd_linux.go, func (f *File) wait) -/

/-- The unix constants of the Waitid call at pidfd_linux.go line 93. -/
def P_PIDFD : Nat := 3

/-- Linux WEXITED option flag. -/
def WEXITED : Nat := 4

/-- Linux WNOWAIT option flag: leave the child in a waitable state, do not
consume its exit status. -/
def WNOWAIT : Nat := 0x01000000

/-- The options word passed to unix.Waitid at pidfd_linux.go line 93. -/
def waitidOptions : Nat := WEXITED ||| WNOWAIT

/-- One invocation of the rc.Read callback of wait (pidfd_linux.go lines
91-101): run unix.Waitid(P_PIDFD, fd, &si, WEXITED|WNOWAIT, nil) and switch
on its result r (none when Waitid succeeds, i.e. the process has exited; some
errno on failure, EAGAIN meaning not yet exited). EAGAIN keeps werr and keeps
waiting; every other result is recorded into werr and stops the poll. -/
def waitCallback (werr : Option GoError) (r : Option Errno) :
    Bool × Option GoError :=
  match r with
  | some Errno.EAGAIN => (false, werr)
  | some e => (true, some (.errno e))
  | none => (true, none)

/-- The result of one callback invocation together with whether the Waitid OS
check ran during it. -/
structure CallbackRun where
  stop : Bool
  werr : Option GoError
  osCheckMade : Bool
  deriving DecidableEq, Repr

/-- The rc.Read callback of wait with the context's cancellation state at
invocation time made explicit. The callback body (pidfd_linux.go lines 92-100)
opens with the unix.Waitid call and never consults the context, so the OS
check is made on every invocation, whatever ctxCanceled is. -/
def waitCallbackRun (ctxCanceled : Bool) (werr : Option GoError)
    (r : Option Errno) : CallbackRun :=
  { stop := (waitCallback werr r).1
    werr := (waitCallback werr r).2
    osCheckMade := true }

/-- The f.rc.Read poll loop (pidfd_linux.go line 91): syscall.RawConn.Read
invokes the callback and, while it returns false, blocks on descriptor
readiness or the read deadline, then invokes it again. checks lists the
Waitid results seen by successive invocations; an exhausted list models the
blocked Read being cut short by the expired read deadline the watcher
goroutine wrote (time.Unix(0, 1)), in which case Read itself returns
os.ErrDeadlineExceeded. Returns (rerr, final werr). -/
def readLoop (werr : Option GoError) :
    List (Option Errno) → Option GoError × Option GoError
  | [] => (some .osDeadlineExceeded, werr)
  | r :: rs =>
    let step := waitCallback werr r
    if step.1 then (none, step.2) else readLoop step.2 rs

/-- The error-selection loop of wait (pidfd_linux.go lines 111-115): return
the first non-nil error of the slice, nil when there is none. -/
def firstError : List (Option GoError) → Option GoError
  | [] => none
  | some e :: _ => some e
  | none :: rest => firstError rest

/-- The descriptor state the wait machinery touches: the read deadline of the
socket.Conn, in nanoseconds since the epoch; 0 stands for the zero time.Time
(no deadline). -/
structure Desc where
  readDeadline : Int
  deriving DecidableEq, Repr

/-- Conn.SetReadDeadline on an open conn: record the deadline. Per spec
section 5 a handle is used serially and not closed concurrently with Wait,
under which the call does not fail. -/
def setReadDeadline (d : Desc) (t : Int) : Desc × Option GoError :=
  ({ readDeadline := t }, none)

/-- The environment of one wait invocation (pidfd_linux.go lines 71-118):
checks are the unix.Waitid results seen by the successive callback
invocations of the poll loop, and ctxErr is the value ctx.Err() yields at
line 105 after the Read has unblocked (none, or context.Canceled, or
context.DeadlineExceeded). -/
structure WaitWorld where
  checks : List (Option Errno)
  ctxErr : Option GoError
  deriving DecidableEq, Repr

/-- One wait invocation (pidfd_linux.go lines 71-118) over the descriptor
state. In order: the watcher goroutine (lines 81-87) writes the past read
deadline time.Unix(0, 1) — it always runs, because cancel() at line 106 fires
ctx.Done even when the caller's context never ends; the poll loop runs (lines
89-101); cerr := ctx.Err() is read (line 105); after cancel() and the
wg.Wait() join (lines 106-107) the deadline is disarmed with
SetReadDeadline(time.Time{}) (line 108); and the first non-nil of
cerr, rerr, werr, serr is returned (lines 111-117). -/
def wait (d : Desc) (w : WaitWorld) : Option GoError × Desc :=
  let forced := setReadDeadline d 1
  let polled := readLoop none w.checks
  let cerr := w.ctxErr
  let cleared := setReadDeadline forced.1 0
  (firstError [cerr, polled.1, polled.2, cleared.2], cleared.1)

/-- A sequence of wait invocations against one handle, threading the
descriptor state; yields the returned errors in order and the final state. -/
def waitRuns (d : Desc) : List WaitWorld → List (Option GoError) × Desc
  | [] => ([], d)
  | w :: ws =>
    let first := wait d w
    let rest := waitRuns first.2 ws
    (first.1 :: rest.1, rest.2)

/-- The environment of one wait invocation whose context is canceled while
the process still runs: the initial callback invocation that RawConn.Read
always performs sees EAGAIN, the poller blocks, and the forced deadline
unblocks it; ctx.Err() then yields context.Canceled. -/
def canceledWorld : WaitWorld :=
  { checks := [some Errno.EAGAIN], ctxErr := some .ctxCanceled }

/-- The environment of one wait invocation against a process that has already
exited: the first Waitid check succeeds and the context is untouched. -/
def exitedWorld : WaitWorld :=
  { checks := [none], ctxErr := none }

/-- A schedule of the synchronization-relevant events of one wait invocation,
as positions in one global interleaving: cancel() (line 106), the wg.Wait()
join returning (line 107) and the deadline clear (line 108) on the main path;
the forced-deadline write (line 86) and the deferred wg.Done() (line 82) in
the watcher goroutine. -/
structure WaitSched where
  cancelPos : Nat
  joinPos : Nat
  clearPos : Nat
  forcePos : Nat
  donePos : Nat

/-- The schedules the code admits: main-path program order (cancel, then the
join returns, then the clear), watcher program order (the deadline write,
then the deferred wg.Done), and the sync.WaitGroup contract (wg.Wait returns
only after wg.Done has run). -/
def WaitSched.admissible (s : WaitSched) : Prop :=
  s.cancelPos < s.joinPos ∧ s.joinPos < s.clearPos ∧
    s.forcePos < s.donePos ∧ s.donePos < s.joinPos

/-! ## Claims -/

/-- C1: the error wait returns is selected with strict priority — the context
error over the poller-call error over the recorded OS-check error over the
deadline-clear error, nil when all four are nil — and wait applies exactly
that selection to its invocation's four errors, so a context error (in
particular a simultaneous cancellation) is always the one returned. -/
theorem wait_error_priority (cerr rerr werr serr : Option GoError) (d : Desc)
    (w : WaitWorld) :
    (∀ e, cerr = some e → firstError [cerr, rerr, werr, serr] = some e) ∧
    (cerr = none → ∀ e, rerr = some e →
      firstError [cerr, rerr, werr, serr] = some e) ∧
    (cerr = none → rerr = none → ∀ e, werr = some e →
      firstError [cerr, rerr, werr, serr] = some e) ∧
    (cerr = none → rerr = none → werr = none →
      firstError [cerr, rerr, werr, serr] = serr) ∧
    (wait d w).1 = firstError [w.ctxErr, (readLoop none w.checks).1,
      (readLoop none w.checks).2, (setReadDeadline (setReadDeadline d 1).1 0).2] ∧
    (∀ e, w.ctxErr = some e → (wait d w).1 = some e) := by
  refine ⟨?_, ?_, ?_, ?_, rfl, ?_⟩
  · rintro e rfl; rfl
  · rintro rfl e rfl; rfl
  · rintro rfl rfl e rfl; rfl
  · rintro rfl rfl rfl; cases serr <;> rfl
  · rintro e h
    show firstError [w.ctxErr, _, _, _] = some e
    rw [h]; rfl

/-- C2: every wait invocation leaves the descriptor's read deadline at the
zero value, and any number of consecutive context-canceled Wait calls each
return context.Canceled, after which a Wait against the exited process
returns success — no deadline state leaks across calls. -/
theorem wait_deadline_reset :
    (∀ d w, ((wait d w).2).readDeadline = 0) ∧
    (∀ (n : Nat) (d : Desc),
      waitRuns d (List.replicate n canceledWorld ++ [exitedWorld]) =
        (List.replicate n (some GoError.ctxCanceled) ++ [none],
          { readDeadline := 0 })) := by
  refine ⟨fun d w => rfl, fun n => ?_⟩
  induction n with
  | zero => exact fun d => rfl
  | succ k ih =>
    intro d
    have h1 : wait d canceledWorld =
        (some GoError.ctxCanceled, { readDeadline := 0 }) := rfl
    simp only [List.replicate_succ, List.cons_append, waitRuns, h1,
      List.append_eq, ih ⟨0⟩]

/-- C3 counterexample: at a concrete predicate invocation with the context
already canceled and the process still running, the wait predicate performs
the Waitid OS exit check anyway and returns keep-waiting, not stop. -/
theorem wait_predicate_canceled_counterexample :
    waitCallbackRun true none (some Errno.EAGAIN) =
      { stop := false, werr := none, osCheckMade := true } := by decide

/-- C3 (amended): the wait predicate never consults the context — it performs
the Waitid OS exit check on every invocation, and its behaviour is the same
whether or not the context is canceled; cancellation takes effect only after
the poller unblocks, through the returned context error's priority. -/
theorem wait_predicate_ignores_context (c : Bool) (werr : Option GoError)
    (r : Option Errno) :
    (waitCallbackRun c werr r).osCheckMade = true ∧
    waitCallbackRun c werr r = waitCallbackRun true werr r :=
  ⟨rfl, rfl⟩

/-- C4: every predicate invocation performs the non-destructive exit check —
the Waitid options include WNOWAIT, so the exit status is not consumed — and
dispatches on it: EAGAIN keeps waiting with werr untouched, success records
nil and stops, any other errno is recorded and stops. -/
theorem wait_predicate_exit_check (c : Bool) (werr : Option GoError) :
    waitidOptions &&& WNOWAIT = WNOWAIT ∧
    (waitCallbackRun c werr (some Errno.EAGAIN)).stop = false ∧
    (waitCallbackRun c werr (some Errno.EAGAIN)).werr = werr ∧
    waitCallbackRun c werr none =
      { stop := true, werr := none, osCheckMade := true } ∧
    (∀ e, e ≠ Errno.EAGAIN → waitCallbackRun c werr (some e) =
      { stop := true, werr := some (.errno e), osCheckMade := true }) := by
  refine ⟨by decide, rfl, rfl, rfl, ?_⟩
  intro e he
  cases e
  case EAGAIN => exact absurd rfl he
  all_goals rfl

/-- C5: in every admissible schedule of one wait invocation, the watcher's
forced-deadline write happens before the main path's deadline clear — the
main path joins the watcher (wg.Wait after cancel) before clearing. -/
theorem wait_join_before_clear (s : WaitSched) (h : s.admissible) :
    s.forcePos < s.clearPos := by
  obtain ⟨h1, h2, h3, h4⟩ := h
  omega

/-- C5 witness: a concrete admissible schedule. -/
theorem wait_join_before_clear_witness :
    WaitSched.forcePos
        { cancelPos := 0, joinPos := 3, clearPos := 4, forcePos := 1, donePos := 2 } <
      WaitSched.clearPos
        { cancelPos := 0, joinPos := 3, clearPos := 4, forcePos := 1, donePos := 2 } :=
  wait_join_before_clear
    { cancelPos := 0, joinPos := 3, clearPos := 4, forcePos := 1, donePos := 2 }
    ⟨by decide, by decide, by decide, by decide⟩

/-- C6: when the process does not exist at call time (PidfdOpen fails with
ESRCH), open returns a *Error that matches os.ErrNotExist, carries the given
pid and a zero descriptor number; a failure of either later acquisition step
is returned as is. -/
theorem open_not_exist (pid : Int) (pidfdOpen : Except Errno Int)
    (socketNew syscallConn : Option GoError)
    (h : pidfdOpen = Except.error Errno.ESRCH) :
    «open» pid pidfdOpen socketNew syscallConn =
        Except.error (GoError.pidfdError 0 pid (GoError.errno Errno.ESRCH)) ∧
    errsIs (GoError.pidfdError 0 pid (GoError.errno Errno.ESRCH))
        GoError.errNotExist = true ∧
    (∀ (fd : Int) (e : GoError) (sc : Option GoError),
      «open» pid (Except.ok fd) (some e) sc = Except.error e) ∧
    (∀ (fd : Int) (e : GoError),
      «open» pid (Except.ok fd) none (some e) = Except.error e) := by
  subst h
  exact ⟨rfl, rfl, fun fd e sc => rfl, fun fd e => rfl⟩

/-- C6 witness: open at the concrete pid of the TestOpenNotExist test. -/
theorem open_not_exist_witness :
    «open» 12345678 (Except.error Errno.ESRCH) none none =
        Except.error (GoError.pidfdError 0 12345678 (GoError.errno Errno.ESRCH)) ∧
    errsIs (GoError.pidfdError 0 12345678 (GoError.errno Errno.ESRCH))
        GoError.errNotExist = true :=
  ⟨(open_not_exist 12345678 (Except.error Errno.ESRCH) none none rfl).1,
    (open_not_exist 12345678 (Except.error Errno.ESRCH) none none rfl).2.1⟩

/-- C7: a signal value outside the platform signal-number domain (not a
unix.Signal) makes sendSignal fail at once with the invalid-signal error and
no OS call; a value in the domain is delivered through the collaborator and
the outcome is classified by wrap. -/
theorem sendSignal_domain (pid fd : Int) (sig : OSSignal)
    (deliver : Option GoError) :
    (signalInDomain sig = false →
      sendSignal pid fd sig deliver = (some GoError.invalidSignalType, false)) ∧
    (signalInDomain sig = true →
      (sendSignal pid fd sig deliver).2 = true ∧
      (sendSignal pid fd sig deliver).1 = wrap pid fd deliver) := by
  cases sig with
  | unixSignal n => exact ⟨fun h => (nomatch h), fun _ => ⟨rfl, rfl⟩⟩
  | otherSignal t => exact ⟨fun _ => rfl, fun h => nomatch h⟩

/-- C8: a delivery that fails with the operation-not-permitted cause yields a
*Error wrapping that cause with the handle's pid and best-effort fd attached,
and the result matches os.ErrPermission through the unwrap chain. -/
theorem sendSignal_permission_denied (pid fd n : Int) :
    sendSignal pid fd (OSSignal.unixSignal n)
        (some (GoError.syscallCall "pidfd_send_signal" Errno.EPERM)) =
      (some (GoError.pidfdError fd pid
        (GoError.syscallCall "pidfd_send_signal" Errno.EPERM)), true) ∧
    errsIs (GoError.pidfdError fd pid
        (GoError.syscallCall "pidfd_send_signal" Errno.EPERM))
      GoError.errPermission = true :=
  ⟨rfl, rfl⟩

/-- C9: the Is method of *Error answers true exactly for the os.ErrNotExist
target with an esrch-matching cause, false for every other target — in
particular os.ErrPermission — and a *Error matches os.ErrPermission exactly
when its unwrapped cause chain does. -/
theorem error_is_not_exist_only (cause target : GoError) (fd pid : Int) :
    (errorIsMethod cause target = true ↔
      target = GoError.errNotExist ∧ errsIs cause (GoError.errno Errno.ESRCH) = true) ∧
    errorIsMethod cause GoError.errPermission = false ∧
    errsIs (GoError.pidfdError fd pid cause) GoError.errPermission =
      errsIs cause GoError.errPermission := by
  refine ⟨?_, rfl, ?_⟩
  · rw [errorIsMethod]
    by_cases h : target = GoError.errNotExist <;> simp [h]
  · show (decide (GoError.pidfdError fd pid cause = GoError.errPermission)
        || (decide (GoError.errPermission = GoError.errNotExist)
            && errsIs cause (.errno .ESRCH))
        || errsIs cause GoError.errPermission) = errsIs cause GoError.errPermission
    simp

/-- C10: a Wait that returns because the context ended returns the context's
own error value — context.Canceled or context.DeadlineExceeded — which is not
a *Error, wraps nothing and carries no pid or descriptor metadata. -/
theorem wait_cancel_returns_context_error (d : Desc) (w : WaitWorld)
    (e : GoError) (h : w.ctxErr = some e)
    (he : e = GoError.ctxCanceled ∨ e = GoError.ctxDeadlineExceeded) :
    (wait d w).1 = some e ∧ asPidfdError e = false ∧ unwrap e = none := by
  refine ⟨?_, ?_, ?_⟩
  · show firstError [w.ctxErr, _, _, _] = some e
    rw [h]; rfl
  · rcases he with rfl | rfl <;> rfl
  · rcases he with rfl | rfl <;> rfl

/-- C10 witness: the canceled-while-running invocation. -/
theorem wait_cancel_returns_context_error_witness :
    (wait { readDeadline := 0 } canceledWorld).1 = some GoError.ctxCanceled ∧
    asPidfdError GoError.ctxCanceled = false ∧
    unwrap GoError.ctxCanceled = none :=
  wait_cancel_returns_context_error { readDeadline := 0 } canceledWorld
    GoError.ctxCanceled rfl (Or.inl rfl)

end Pidfd
